import Mathlib

/-!
Shallow embedding of the TD_CNN exercise solutions:
`train_one_epoch` (src/solutions/exo1.py), `evaluate` (src/solutions/exo2.py)
and the plotting script (src/solutions/exo3.py).

Tensors of rationals model the floating-point values (exact arithmetic);
a dataloader is a list of batches, each batch a list of (input, label) pairs.
The external autograd library's calls are abstracted: the model is a function
from an input to a logit vector, and the criterion is parametrised by a
per-sample loss and averages it over the batch (the code's comment: "by
default, pytorch averages loss over batch").
-/

namespace TDCNN

/-- First index of a maximal element, as `torch.argmax` over a logit vector
(`dim=1` of the batched output selects per-sample vectors): scan left to
right, replace the running best only on a strictly larger value. -/
def argmaxAux : List ℚ → ℕ → ℕ → ℚ → ℕ
  | [], _, bi, _ => bi
  | v :: vs, i, bi, bv =>
    if bv < v then argmaxAux vs (i + 1) i v else argmaxAux vs (i + 1) bi bv

/-- `torch.argmax` on one sample's logit vector. -/
def argmax : List ℚ → ℕ
  | [] => 0
  | v :: vs => argmaxAux vs 1 0 v

/-- `torch.sum(pred == label)`: the number of positions where the predicted
class equals the label. -/
def countEq (pred label : List ℕ) : ℕ :=
  (pred.zip label).countP (fun p => p.1 == p.2)

/-- The batched criterion call `criterion(y, label)`: pytorch's default mean
reduction, the per-sample losses averaged over the batch (code comment in
exo2.py: "by default, pytorch averages loss over batch"). `crit1` is the
per-sample loss of one logit vector against one label. -/
def criterion (crit1 : List ℚ → ℕ → ℚ) (y : List (List ℚ)) (label : List ℕ) : ℚ :=
  ((y.zip label).map (fun p => crit1 p.1 p.2)).sum / label.length

/-- The three accumulators of `evaluate`, in source order. -/
structure EvalState where
  total_loss : ℚ
  total_accuracy : ℕ
  num_samples : ℕ
deriving DecidableEq, Repr

/-- One iteration of the `for x, label in dataloader` loop body of
`evaluate`: forward pass on the batch, batched criterion, per-sample argmax,
count of correct predictions, then the three accumulator updates. -/
def evalStep {X : Type} (model : X → List ℚ) (crit1 : List ℚ → ℕ → ℚ)
    (s : EvalState) (batch : List (X × ℕ)) : EvalState :=
  let x := batch.map Prod.fst
  let label := batch.map Prod.snd
  let y := x.map model
  let loss := criterion crit1 y label
  let pred := y.map argmax
  let accuracy := countEq pred label
  { total_loss := s.total_loss + loss * label.length
    total_accuracy := s.total_accuracy + accuracy
    num_samples := s.num_samples + label.length }

/-- The loop of `evaluate` over the dataloader's batches. -/
def evalLoop {X : Type} (model : X → List ℚ) (crit1 : List ℚ → ℕ → ℚ) :
    List (List (X × ℕ)) → EvalState → EvalState
  | [], s => s
  | b :: rest, s => evalLoop model crit1 rest (evalStep model crit1 s b)

/-- `evaluate(dataloader)` of exo2.py: run the accumulation loop from the
zero accumulators, then return `(total_loss / num_samples,
total_accuracy / num_samples)`. The division is unguarded in the source;
`num_samples = 0` raises `ZeroDivisionError`, modelled as `none`. -/
def evaluate {X : Type} (model : X → List ℚ) (crit1 : List ℚ → ℕ → ℚ)
    (dataloader : List (List (X × ℕ))) : Option (ℚ × ℚ) :=
  let s := evalLoop model crit1 dataloader ⟨0, 0, 0⟩
  if s.num_samples = 0 then none
  else some (s.total_loss / s.num_samples, (s.total_accuracy : ℚ) / s.num_samples)

/-- The samples a dataloader yields, in order, batching forgotten. -/
def samples {X : Type} (dataloader : List (List (X × ℕ))) : List (X × ℕ) :=
  dataloader.flatten

/-- Spec-side count: the samples whose argmax prediction equals their label. -/
def correctCount {X : Type} (model : X → List ℚ)
    (dataloader : List (List (X × ℕ))) : ℕ :=
  (samples dataloader).countP (fun p => argmax (model p.1) == p.2)

/-- Spec-side sum: the per-sample losses over all samples. -/
def perSampleLossSum {X : Type} (model : X → List ℚ) (crit1 : List ℚ → ℕ → ℚ)
    (dataloader : List (List (X × ℕ))) : ℚ :=
  ((samples dataloader).map (fun p => crit1 (model p.1) p.2)).sum

lemma evalLoop_num_samples {X : Type} (model : X → List ℚ) (crit1 : List ℚ → ℕ → ℚ)
    (dl : List (List (X × ℕ))) (s : EvalState) :
    (evalLoop model crit1 dl s).num_samples = s.num_samples + (samples dl).length := by
  induction dl generalizing s with
  | nil => simp [evalLoop, samples]
  | cons b rest ih =>
    simp only [evalLoop, ih, evalStep, samples, List.flatten_cons, List.length_append,
      List.length_map]
    ring

lemma evalLoop_total_accuracy {X : Type} (model : X → List ℚ) (crit1 : List ℚ → ℕ → ℚ)
    (dl : List (List (X × ℕ))) (s : EvalState) :
    (evalLoop model crit1 dl s).total_accuracy =
      s.total_accuracy + (samples dl).countP (fun p => argmax (model p.1) == p.2) := by
  induction dl generalizing s with
  | nil => simp [evalLoop, samples]
  | cons b rest ih =>
    have hbatch : countEq ((b.map Prod.fst).map model |>.map argmax) (b.map Prod.snd) =
        b.countP (fun p => argmax (model p.1) == p.2) := by
      simp only [countEq, List.map_map, List.zip_map', List.countP_map]
      rfl
    simp only [evalLoop, ih, evalStep, samples, List.flatten_cons, List.countP_append, hbatch]
    ring

lemma batch_loss_eq {X : Type} (model : X → List ℚ) (crit1 : List ℚ → ℕ → ℚ)
    (b : List (X × ℕ)) (hb : b ≠ []) :
    criterion crit1 ((b.map Prod.fst).map model) (b.map Prod.snd) *
        ((b.map Prod.snd).length : ℚ) =
      (b.map (fun p => crit1 (model p.1) p.2)).sum := by
  have hlen : ((b.map Prod.snd).length : ℚ) ≠ 0 := by
    simp only [List.length_map, ne_eq, Nat.cast_eq_zero, List.length_eq_zero]
    exact hb
  have hsum : ((((b.map Prod.fst).map model).zip (b.map Prod.snd)).map
      (fun p => crit1 p.1 p.2)).sum = (b.map (fun p => crit1 (model p.1) p.2)).sum := by
    simp only [List.map_map, List.zip_map', List.map_map]
    rfl
  simp only [criterion, hsum]
  exact div_mul_cancel₀ _ hlen

lemma evalLoop_total_loss {X : Type} (model : X → List ℚ) (crit1 : List ℚ → ℕ → ℚ)
    (dl : List (List (X × ℕ))) (s : EvalState) (hdl : ∀ b ∈ dl, b ≠ []) :
    (evalLoop model crit1 dl s).total_loss =
      s.total_loss + ((samples dl).map (fun p => crit1 (model p.1) p.2)).sum := by
  induction dl generalizing s with
  | nil => simp [evalLoop, samples]
  | cons b rest ih =>
    have hb : b ≠ [] := hdl b (List.mem_cons_self b rest)
    have hrest : ∀ c ∈ rest, c ≠ [] := fun c hc => hdl c (List.mem_cons_of_mem b hc)
    simp only [evalLoop, ih _ hrest, evalStep, samples, List.flatten_cons, List.map_append,
      List.sum_append, batch_loss_eq model crit1 b hb]
    ring

/-- The result of `evaluate` on a dataloader whose yield is non-empty, in
terms of the flattened sample sequence: mean per-sample loss and fraction
of correctly classified samples (exact arithmetic, all batches non-empty). -/
lemma evaluate_eq {X : Type} (model : X → List ℚ) (crit1 : List ℚ → ℕ → ℚ)
    (dl : List (List (X × ℕ))) (hdl : ∀ b ∈ dl, b ≠ []) (hN : 0 < (samples dl).length) :
    evaluate model crit1 dl =
      some (perSampleLossSum model crit1 dl / ((samples dl).length : ℚ),
        (correctCount model dl : ℚ) / ((samples dl).length : ℚ)) := by
  simp only [evaluate, evalLoop_num_samples, evalLoop_total_accuracy,
    evalLoop_total_loss model crit1 dl _ hdl, perSampleLossSum, correctCount]
  simp [List.length_pos.mp hN, hN.ne']

/-- C1. For every dataloader yielding `N > 0` samples in total, the second
value returned by `evaluate` equals `correct_count / N`, where
`correct_count` counts over all batches the samples whose argmax prediction
over dimension 1 of the model output equals their label. -/
theorem exo2_C1_accuracy {X : Type} (model : X → List ℚ) (crit1 : List ℚ → ℕ → ℚ)
    (dl : List (List (X × ℕ))) (hN : 0 < (samples dl).length) :
    (evaluate model crit1 dl).map Prod.snd =
      some ((correctCount model dl : ℚ) / ((samples dl).length : ℚ)) := by
  simp only [evaluate, evalLoop_num_samples, evalLoop_total_accuracy, correctCount]
  simp [List.length_pos.mp hN, hN.ne']

/-- C1 witness: a two-sample dataloader where one argmax prediction matches
its label, so the accuracy is 1/2. -/
theorem exo2_C1_accuracy_witness :
    (evaluate (fun q : ℚ => [q, 1 - q]) (fun _ _ => 1) [[((0 : ℚ), 1), ((1 : ℚ), 1)]]).map
        Prod.snd = some ((1 : ℚ) / 2) := by
  have h := exo2_C1_accuracy (fun q : ℚ => [q, 1 - q]) (fun _ _ => 1)
    [[((0 : ℚ), 1), ((1 : ℚ), 1)]] (by decide)
  rw [h]
  norm_num [correctCount, samples, argmax, argmaxAux]

lemma samples_ne_nil {X : Type} (dl : List (List (X × ℕ))) (hne : dl ≠ [])
    (hdl : ∀ b ∈ dl, b ≠ []) : 0 < (samples dl).length := by
  match dl with
  | [] => exact absurd rfl hne
  | b :: rest =>
    have hb : b ≠ [] := hdl b (List.mem_cons_self b rest)
    match b with
    | [] => exact absurd rfl hb
    | p :: ps => simp [samples]

/-- C2. For every non-empty dataloader (all batches non-empty, as a batching
of a dataset always yields), the first value returned by `evaluate` equals
the sum of the per-sample losses divided by the total sample count: the code
multiplies each batch's mean loss by the batch size before accumulating and
divides the accumulated sum by `num_samples` at the end. -/
theorem exo2_C2_mean_loss {X : Type} (model : X → List ℚ) (crit1 : List ℚ → ℕ → ℚ)
    (dl : List (List (X × ℕ))) (hne : dl ≠ []) (hdl : ∀ b ∈ dl, b ≠ []) :
    (evaluate model crit1 dl).map Prod.fst =
      some (perSampleLossSum model crit1 dl / ((samples dl).length : ℚ)) := by
  rw [evaluate_eq model crit1 dl hdl (samples_ne_nil dl hne hdl)]
  rfl

/-- C2 witness: two batches of sizes 2 and 1 with per-sample losses 1, 2, 6;
the mean loss is (1 + 2 + 6) / 3 = 3. -/
theorem exo2_C2_mean_loss_witness :
    (evaluate (fun q : ℚ => [q]) (fun _ l => (l : ℚ))
        [[((0 : ℚ), 1), ((0 : ℚ), 2)], [((0 : ℚ), 6)]]).map Prod.fst = some (3 : ℚ) := by
  have h := exo2_C2_mean_loss (fun q : ℚ => [q]) (fun _ l => (l : ℚ))
    [[((0 : ℚ), 1), ((0 : ℚ), 2)], [((0 : ℚ), 6)]] (by decide) (by decide)
  rw [h]
  norm_num [perSampleLossSum, samples]

/-- C4. Two dataloaders that batch the same sample sequence differently
(every batch non-empty) give `evaluate` the same result: the same accuracy
and, in exact arithmetic, the same mean loss, because each batch's mean loss
is re-weighted by its batch size before accumulation. -/
theorem exo2_C4_batching_invariant {X : Type} (model : X → List ℚ)
    (crit1 : List ℚ → ℕ → ℚ) (dl1 dl2 : List (List (X × ℕ)))
    (h1 : ∀ b ∈ dl1, b ≠ []) (h2 : ∀ b ∈ dl2, b ≠ [])
    (hsame : samples dl1 = samples dl2) :
    evaluate model crit1 dl1 = evaluate model crit1 dl2 := by
  rcases Nat.eq_zero_or_pos (samples dl1).length with h0 | hpos
  · have h0' : (samples dl2).length = 0 := by rw [← hsame]; exact h0
    simp only [evaluate, evalLoop_num_samples]
    simp [h0, h0']
  · have hpos' : 0 < (samples dl2).length := by rw [← hsame]; exact hpos
    rw [evaluate_eq model crit1 dl1 h1 hpos, evaluate_eq model crit1 dl2 h2 hpos',
      hsame]
    simp [perSampleLossSum, correctCount, hsame]

/-- C4 witness: the same three samples batched as [2,1] and as [1,1,1] give
equal results. -/
theorem exo2_C4_batching_invariant_witness :
    evaluate (fun q : ℚ => [q]) (fun _ l => (l : ℚ))
        [[((0 : ℚ), 1), ((0 : ℚ), 2)], [((0 : ℚ), 6)]] =
      evaluate (fun q : ℚ => [q]) (fun _ l => (l : ℚ))
        [[((0 : ℚ), 1)], [((0 : ℚ), 2)], [((0 : ℚ), 6)]] :=
  exo2_C4_batching_invariant (fun q : ℚ => [q]) (fun _ l => (l : ℚ))
    [[((0 : ℚ), 1), ((0 : ℚ), 2)], [((0 : ℚ), 6)]]
    [[((0 : ℚ), 1)], [((0 : ℚ), 2)], [((0 : ℚ), 6)]]
    (by decide) (by decide) (by decide)

/-- C8. On a dataloader yielding no batches the loop leaves all three
accumulators at the integer 0, so `evaluate` reaches the unguarded final
division with `num_samples = 0` and fails with a division-by-zero error
(modelled as `none`); in general `evaluate` returns normally exactly when
the loop saw at least one sample. -/
theorem exo2_C8_empty_dataloader {X : Type} (model : X → List ℚ)
    (crit1 : List ℚ → ℕ → ℚ) :
    evalLoop model crit1 [] ⟨0, 0, 0⟩ = (⟨0, 0, 0⟩ : EvalState) ∧
      evaluate model crit1 ([] : List (List (X × ℕ))) = none ∧
      ∀ dl : List (List (X × ℕ)),
        (evaluate model crit1 dl).isSome ↔ 0 < (evalLoop model crit1 dl ⟨0, 0, 0⟩).num_samples := by
  refine ⟨rfl, rfl, fun dl => ?_⟩
  simp only [evaluate]
  rcases Nat.eq_zero_or_pos (evalLoop model crit1 dl ⟨0, 0, 0⟩).num_samples with h | h
  · simp [h]
  · simp [h, h.ne']

/-- C9. `evaluate` is deterministic: on the same model, criterion and
dataloader contents it returns equal loss and accuracy values. -/
theorem exo2_C9_deterministic {X : Type} (model1 model2 : X → List ℚ)
    (crit1 crit2 : List ℚ → ℕ → ℚ) (dl1 dl2 : List (List (X × ℕ)))
    (hm : model1 = model2) (hc : crit1 = crit2) (hd : dl1 = dl2) :
    evaluate model1 crit1 dl1 = evaluate model2 crit2 dl2 := by
  rw [hm, hc, hd]

/-- C9 witness: two runs on identical contents agree. -/
theorem exo2_C9_deterministic_witness :
    evaluate (fun q : ℚ => [q, 0]) (fun _ _ => 1) [[((1 : ℚ), 0)]] =
      evaluate (fun q : ℚ => [q, 0]) (fun _ _ => 1) [[((1 : ℚ), 0)]] :=
  exo2_C9_deterministic (fun q : ℚ => [q, 0]) (fun q : ℚ => [q, 0])
    (fun _ _ => 1) (fun _ _ => 1) [[((1 : ℚ), 0)]] [[((1 : ℚ), 0)]] rfl rfl rfl

/-- The library calls the two loops issue, tagged with the batch being
processed. `zero_grad`, `backward` and `step` mutate model or optimizer
state (gradients, parameters); moving tensors to the device, the forward
pass, the loss computation, the argmax and the equality-sum produce new
values and mutate neither (the evaluation loop additionally runs under
`torch.no_grad()`, so its forward pass writes no gradients). -/
inductive Ev (β : Type) where
  | zero_grad (b : β)
  | to_device_x (b : β)
  | to_device_label (b : β)
  | forward (b : β)
  | loss_call (b : β)
  | backward (b : β)
  | step (b : β)
  | pred_argmax (b : β)
  | acc_sum (b : β)
deriving DecidableEq, Repr

/-- Does the call write model parameters, gradients or optimizer state? -/
def Ev.mutates {β : Type} : Ev β → Bool
  | .zero_grad _ => true
  | .backward _ => true
  | .step _ => true
  | _ => false

/-- The batch a `step` call processed, if the call is a `step`. -/
def Ev.stepBatch {β : Type} : Ev β → Option β
  | .step b => some b
  | _ => none

/-- `train_one_epoch()` of exo1.py as the trace of library calls its
`for x, label in train_loader` loop issues, in source order: zero the
gradients, move `x` then `label` to the device, forward pass, loss,
backward pass, optimizer step, then the next batch. -/
def train_one_epoch {β : Type} : List β → List (Ev β)
  | [] => []
  | b :: rest =>
    Ev.zero_grad b :: Ev.to_device_x b :: Ev.to_device_label b :: Ev.forward b ::
      Ev.loss_call b :: Ev.backward b :: Ev.step b :: train_one_epoch rest

/-- The `for x, label in dataloader` loop of `evaluate` as the trace of
library calls it issues inside `torch.no_grad()`: move `x` then `label` to
the device, forward pass, loss, argmax, equality-sum, then the next batch.
No accumulator update calls into the library. -/
def evaluateTrace {β : Type} : List β → List (Ev β)
  | [] => []
  | b :: rest =>
    Ev.to_device_x b :: Ev.to_device_label b :: Ev.forward b :: Ev.loss_call b ::
      Ev.pred_argmax b :: Ev.acc_sum b :: evaluateTrace rest

/-- The state-mutating calls, interpreted on an abstract training state
(parameters, gradients, optimizer state); every other call only computes
values. -/
structure MutOps (σ β : Type) where
  zero_grad : σ → σ
  backward : β → σ → σ
  step : β → σ → σ

/-- Run a trace of library calls over the training state: mutating calls
apply their state transformer, non-mutating calls leave the state as is. -/
def applyEv {σ β : Type} (M : MutOps σ β) : Ev β → σ → σ
  | .zero_grad _, s => M.zero_grad s
  | .backward b, s => M.backward b s
  | .step b, s => M.step b s
  | _, s => s

/-- Run a whole trace left to right. -/
def runTrace {σ β : Type} (M : MutOps σ β) (es : List (Ev β)) (s : σ) : σ :=
  es.foldl (fun s e => applyEv M e s) s

/-- C3. Per batch, `train_one_epoch` issues exactly the five named steps in
order — zero gradients, forward pass, loss, backward pass, optimizer step
(the only other calls are the two device moves) — and the only calls that
mutate model or optimizer state are zero-grad, backward and step, once each
per batch in that order. -/
theorem exo1_C3_step_order {β : Type} (L : List β) :
    (train_one_epoch L).filter
        (fun e => !(e matches Ev.to_device_x _) && !(e matches Ev.to_device_label _)) =
      L.flatMap (fun b => [Ev.zero_grad b, Ev.forward b, Ev.loss_call b,
        Ev.backward b, Ev.step b]) ∧
    (train_one_epoch L).filter Ev.mutates =
      L.flatMap (fun b => [Ev.zero_grad b, Ev.backward b, Ev.step b]) := by
  constructor <;>
  · induction L with
    | nil => rfl
    | cons b rest ih => simp [train_one_epoch, ih, Ev.mutates]

/-- C6. `train_one_epoch` makes exactly one pass: the optimizer steps of its
trace process each batch the loader yields exactly once, in the yielded
order, and the trace is finite — exactly seven calls per batch — so the
function terminates after the last batch. -/
theorem exo1_C6_single_pass {β : Type} (L : List β) :
    (train_one_epoch L).filterMap Ev.stepBatch = L ∧
      (train_one_epoch L).length = 7 * L.length := by
  constructor <;>
  · induction L with
    | nil => rfl
    | cons b rest ih =>
      simp [train_one_epoch, ih, Ev.stepBatch, Nat.mul_succ, Nat.mul_add]
      try omega

/-- C7. `evaluate` leaves the model unchanged: its loop runs under
`torch.no_grad()`, calls no optimizer method and assigns no parameter, so
its trace contains no state-mutating call and running the trace over any
training state (parameters, gradients, optimizer state) returns that state
unchanged. -/
theorem exo2_C7_model_unchanged {σ β : Type} (M : MutOps σ β) (dl : List β) (s : σ) :
    runTrace M (evaluateTrace dl) s = s ∧
      ∀ e ∈ evaluateTrace dl, e.mutates = false := by
  constructor
  · induction dl generalizing s with
    | nil => rfl
    | cons b rest ih => simpa [evaluateTrace, runTrace, applyEv] using ih s
  · induction dl with
    | nil => simp [evaluateTrace]
    | cons b rest ih =>
      intro e he
      simp only [evaluateTrace, List.mem_cons] at he
      rcases he with h | h | h | h | h | h | h
      all_goals first
        | (subst h; rfl)
        | exact ih e h

/-- The library calls of the training loop as fallible state transformers:
any of them may raise (e.g. on a shape mismatch), returning `Except.error`. -/
structure TorchOps (σ β ε : Type) where
  zero_grad : σ → Except ε σ
  to_device_x : β → σ → Except ε σ
  to_device_label : β → σ → Except ε σ
  forward : β → σ → Except ε σ
  loss_call : β → σ → Except ε σ
  backward : β → σ → Except ε σ
  step : β → σ → Except ε σ

/-- The body of `train_one_epoch`'s loop for one batch with fallible library
calls, in source order; no call is wrapped in any handler, so the first
error aborts the batch and is returned as is. -/
def processBatchE {σ β ε : Type} (P : TorchOps σ β ε) (b : β) (s : σ) : Except ε σ :=
  Except.bind (P.zero_grad s) fun s1 =>
  Except.bind (P.to_device_x b s1) fun s2 =>
  Except.bind (P.to_device_label b s2) fun s3 =>
  Except.bind (P.forward b s3) fun s4 =>
  Except.bind (P.loss_call b s4) fun s5 =>
  Except.bind (P.backward b s5) fun s6 =>
  P.step b s6

/-- `train_one_epoch` with fallible library calls: the loop has no
try/except, so an error from any batch aborts the epoch and propagates. -/
def train_one_epochE {σ β ε : Type} (P : TorchOps σ β ε) : List β → σ → Except ε σ
  | [], s => .ok s
  | b :: rest, s =>
    Except.bind (processBatchE P b s) fun s1 => train_one_epochE P rest s1

/-- The batched forward pass `lenet(x)` with a fallible per-sample model. -/
def forwardE {X ε : Type} (modelE : X → Except ε (List ℚ)) : List X → Except ε (List (List ℚ))
  | [] => .ok []
  | x :: xs =>
    Except.bind (modelE x) fun y =>
    Except.bind (forwardE modelE xs) fun ys => .ok (y :: ys)

/-- `evaluate`'s loop with a fallible forward pass and criterion (the argmax
and sum are modelled as pure): no call is wrapped in any handler. -/
def evaluateE {X ε : Type} (modelE : X → Except ε (List ℚ))
    (critE : List (List ℚ) → List ℕ → Except ε ℚ) :
    List (List (X × ℕ)) → EvalState → Except ε EvalState
  | [], s => .ok s
  | b :: rest, s =>
    Except.bind (forwardE modelE (b.map Prod.fst)) fun y =>
    Except.bind (critE y (b.map Prod.snd)) fun loss =>
    evaluateE modelE critE rest
      { total_loss := s.total_loss + loss * ((b.map Prod.snd).length : ℚ)
        total_accuracy := s.total_accuracy + countEq (y.map argmax) (b.map Prod.snd)
        num_samples := s.num_samples + (b.map Prod.snd).length }

lemma ok_bind {ε α β : Type} (a : α) (f : α → Except ε β) :
    Except.bind (.ok a) f = f a := rfl

lemma bind_error_cases {ε α β : Type} (m : Except ε α) (f : α → Except ε β) (e : ε)
    (h : Except.bind m f = .error e) :
    m = .error e ∨ ∃ a, m = .ok a ∧ f a = .error e := by
  cases m with
  | error e1 =>
    simp only [Except.bind] at h
    injection h with h
    exact Or.inl (by rw [h])
  | ok a => simp only [Except.bind] at h; exact Or.inr ⟨a, rfl, h⟩

lemma forwardE_error {X ε : Type} (modelE : X → Except ε (List ℚ)) (xs : List X) (e : ε)
    (h : forwardE modelE xs = .error e) : ∃ x ∈ xs, modelE x = .error e := by
  induction xs with
  | nil => simp [forwardE] at h
  | cons x xs ih =>
    rw [forwardE] at h
    rcases bind_error_cases _ _ _ h with h1 | ⟨y, h1, h⟩
    · exact ⟨x, List.mem_cons_self x xs, h1⟩
    · rcases bind_error_cases _ _ _ h with h2 | ⟨ys, h2, h⟩
      · obtain ⟨z, hz, hfz⟩ := ih h2
        exact ⟨z, List.mem_cons_of_mem x hz, hfz⟩
      · exact absurd h (by simp)

lemma forwardE_ok_lift {X ε : Type} (model : X → List ℚ) (xs : List X) :
    forwardE (fun x => (Except.ok (model x) : Except ε (List ℚ))) xs = .ok (xs.map model) := by
  induction xs with
  | nil => rfl
  | cons x xs ih => rw [forwardE, ok_bind, ih, ok_bind]; rfl

lemma processBatchE_error {σ β ε : Type} (P : TorchOps σ β ε) (b : β) (s : σ) (e : ε)
    (h : processBatchE P b s = .error e) :
    ∃ s', P.zero_grad s' = .error e ∨ P.to_device_x b s' = .error e ∨
      P.to_device_label b s' = .error e ∨ P.forward b s' = .error e ∨
      P.loss_call b s' = .error e ∨ P.backward b s' = .error e ∨
      P.step b s' = .error e := by
  rw [processBatchE] at h
  rcases bind_error_cases _ _ _ h with h1 | ⟨s1, _, h⟩
  · exact ⟨s, Or.inl h1⟩
  rcases bind_error_cases _ _ _ h with h2 | ⟨s2, _, h⟩
  · exact ⟨s1, Or.inr (Or.inl h2)⟩
  rcases bind_error_cases _ _ _ h with h3 | ⟨s3, _, h⟩
  · exact ⟨s2, Or.inr (Or.inr (Or.inl h3))⟩
  rcases bind_error_cases _ _ _ h with h4 | ⟨s4, _, h⟩
  · exact ⟨s3, Or.inr (Or.inr (Or.inr (Or.inl h4)))⟩
  rcases bind_error_cases _ _ _ h with h5 | ⟨s5, _, h⟩
  · exact ⟨s4, Or.inr (Or.inr (Or.inr (Or.inr (Or.inl h5))))⟩
  rcases bind_error_cases _ _ _ h with h6 | ⟨s6, _, h⟩
  · exact ⟨s5, Or.inr (Or.inr (Or.inr (Or.inr (Or.inr (Or.inl h6)))))⟩
  exact ⟨s6, Or.inr (Or.inr (Or.inr (Or.inr (Or.inr (Or.inr h)))))⟩

lemma train_one_epochE_error {σ β ε : Type} (P : TorchOps σ β ε) (L : List β)
    (s : σ) (e : ε) (h : train_one_epochE P L s = .error e) :
    ∃ b ∈ L, ∃ s', P.zero_grad s' = .error e ∨ P.to_device_x b s' = .error e ∨
      P.to_device_label b s' = .error e ∨ P.forward b s' = .error e ∨
      P.loss_call b s' = .error e ∨ P.backward b s' = .error e ∨
      P.step b s' = .error e := by
  induction L generalizing s with
  | nil => simp [train_one_epochE] at h
  | cons b rest ih =>
    rw [train_one_epochE] at h
    rcases bind_error_cases _ _ _ h with h1 | ⟨s1, _, h⟩
    · exact ⟨b, List.mem_cons_self b rest, processBatchE_error P b s e h1⟩
    · obtain ⟨c, hc, hw⟩ := ih s1 h
      exact ⟨c, List.mem_cons_of_mem b hc, hw⟩

lemma evaluateE_error {X ε : Type} (modelE : X → Except ε (List ℚ))
    (critE : List (List ℚ) → List ℕ → Except ε ℚ) (dl : List (List (X × ℕ)))
    (s : EvalState) (e : ε) (h : evaluateE modelE critE dl s = .error e) :
    (∃ x, modelE x = .error e) ∨ ∃ y l, critE y l = .error e := by
  induction dl generalizing s with
  | nil => simp [evaluateE] at h
  | cons b rest ih =>
    rw [evaluateE] at h
    rcases bind_error_cases _ _ _ h with h1 | ⟨y, _, h⟩
    · obtain ⟨x, _, hx⟩ := forwardE_error modelE (b.map Prod.fst) e h1
      exact Or.inl ⟨x, hx⟩
    · rcases bind_error_cases _ _ _ h with h2 | ⟨loss, _, h⟩
      · exact Or.inr ⟨y, b.map Prod.snd, h2⟩
      · exact ih _ h

lemma evaluateE_ok_lift {X ε : Type} (model : X → List ℚ) (crit1 : List ℚ → ℕ → ℚ)
    (dl : List (List (X × ℕ))) (s : EvalState) :
    evaluateE (fun x => (Except.ok (model x) : Except ε (List ℚ)))
        (fun y l => .ok (criterion crit1 y l)) dl s = .ok (evalLoop model crit1 dl s) := by
  induction dl generalizing s with
  | nil => rfl
  | cons b rest ih =>
    rw [evaluateE, forwardE_ok_lift, ok_bind, ok_bind, evalLoop, ih]
    rfl

/-- C5. Neither `train_one_epoch` nor `evaluate` catches, transforms or
recovers from an exception: when an underlying library call fails, the loop
returns exactly the error that call produced (first part: the evaluation
loop's error is one produced by the forward pass or the criterion; second
part: the training loop's error is one produced by one of its seven library
calls on some batch it was processing); and when no call fails, the
evaluation loop computes exactly the pure accumulation — no retry or
recovery path exists. -/
theorem exo12_C5_no_exception_handling {X σ β ε : Type} :
    (∀ (modelE : X → Except ε (List ℚ)) (critE : List (List ℚ) → List ℕ → Except ε ℚ)
        (dl : List (List (X × ℕ))) (s : EvalState) (e : ε),
      evaluateE modelE critE dl s = .error e →
        (∃ x, modelE x = .error e) ∨ ∃ y l, critE y l = .error e) ∧
    (∀ (P : TorchOps σ β ε) (L : List β) (s : σ) (e : ε),
      train_one_epochE P L s = .error e →
        ∃ b ∈ L, ∃ s', P.zero_grad s' = .error e ∨ P.to_device_x b s' = .error e ∨
          P.to_device_label b s' = .error e ∨ P.forward b s' = .error e ∨
          P.loss_call b s' = .error e ∨ P.backward b s' = .error e ∨
          P.step b s' = .error e) ∧
    (∀ (model : X → List ℚ) (crit1 : List ℚ → ℕ → ℚ) (dl : List (List (X × ℕ)))
        (s : EvalState),
      evaluateE (fun x => (Except.ok (model x) : Except ε (List ℚ)))
          (fun y l => .ok (criterion crit1 y l)) dl s =
        .ok (evalLoop model crit1 dl s)) :=
  ⟨evaluateE_error, train_one_epochE_error, evaluateE_ok_lift⟩

/-- The four accumulated scalar series exo3.py plots; the accuracy series
are scaled by 100 at the call site (`plt.plot(100 * train_accuracy, ...)`). -/
inductive Series where
  | train_loss
  | test_loss
  | train_accuracy_pct
  | test_accuracy_pct
deriving DecidableEq, Repr

/-- The matplotlib calls exo3.py issues, in order. `plot` carries the series
it draws; the commented-out `axhline` is absent. -/
inductive PlotCall where
  | figure
  | subplot (rows cols idx : ℕ)
  | plot (s : Series)
  | yscale
  | title
  | legend
  | ylim
  | showFig
deriving DecidableEq, Repr

/-- exo3.py as the sequence of matplotlib calls it makes, in source order:
one figure, the loss subplot with its two curves, the accuracy subplot with
its two curves, then `plt.show()`. -/
def plottingScript : List PlotCall :=
  [PlotCall.figure,
   PlotCall.subplot 1 2 1,
   PlotCall.plot Series.train_loss,
   PlotCall.plot Series.test_loss,
   PlotCall.yscale,
   PlotCall.title,
   PlotCall.legend,
   PlotCall.subplot 1 2 2,
   PlotCall.plot Series.train_accuracy_pct,
   PlotCall.plot Series.test_accuracy_pct,
   PlotCall.title,
   PlotCall.ylim,
   PlotCall.legend,
   PlotCall.showFig]

/-- Is the call a `plt.plot` of an accumulated scalar series? -/
def PlotCall.isPlot : PlotCall → Bool
  | .plot _ => true
  | _ => false

/-- Is the call a `plt.subplot`? -/
def PlotCall.isSubplot : PlotCall → Bool
  | .subplot _ _ _ => true
  | _ => false

/-- C10 counterexample. The script does not issue exactly two `plt.plot`
calls against the accumulated scalar series: it issues four. -/
theorem exo3_C10_not_two_plot_calls :
    plottingScript.countP PlotCall.isPlot = 4 ∧
      ¬ plottingScript.countP PlotCall.isPlot = 2 := by
  decide

/-- C10 amended. The plotting component issues exactly two subplot calls —
the loss panel and the accuracy panel — and exactly four `plt.plot` calls
against the accumulated scalar series, two per subplot: train and test loss,
then train and test accuracy (the latter two scaled by 100). -/
theorem exo3_C10_two_subplots_four_plots :
    plottingScript.countP PlotCall.isSubplot = 2 ∧
      plottingScript.countP PlotCall.isPlot = 4 ∧
      plottingScript.filterMap
          (fun c => match c with | PlotCall.plot s => some s | _ => none) =
        [Series.train_loss, Series.test_loss,
         Series.train_accuracy_pct, Series.test_accuracy_pct] := by
  decide

end TDCNN
